import Mathlib

/-!
Shallow embedding of the DecentralizedExchange Solana program
(src/src/state.rs, src/src/processor.rs).

Machine integers: the program uses `u64` and `u16`.  We embed them as `Nat`
and make overflow explicit: checked operations (`checked_mul`, `checked_div`,
`checked_sub`) fail exactly when the Rust ones do, and the unchecked `+= 1`
increments (release-profile Rust) wrap modulo `2 ^ 64`.  Rust's `%` operator
panics on a zero divisor; the `TxOutcome.aborted` constructor records such a
panic (it is neither success nor a returned `DexError`).

Accounts: each `process_*` function receives its accounts positionally; we
embed an account's pubkey as a `Nat` and its `is_signer` flag as a `Bool`,
and the Market/Order account contents as the corresponding record (Borsh
round-trips exactly, and an all-zero buffer decodes to the all-zero record,
so zeroing an order's bytes is embedded as writing `zeroOrder`).

Token transfers (`spl_token::instruction::transfer` via `invoke` /
`invoke_signed`) are requests to the external ledger collaborator; the
embedding logs them as `Transfer` records in the order they are issued.

Transaction semantics: the host runtime commits account writes only when the
instruction returns `Ok`; on an error or panic the whole transaction is
rolled back, so nothing is persisted and no transfer takes effect.  `commit`
captures exactly this.
-/

namespace Dex

/-- Modulus of the 64-bit unsigned integer type used throughout the program. -/
def U64_MOD : Nat := 18446744073709551616

/-- Modulus of the 16-bit unsigned integer type of `fee_rate_bps`. -/
def U16_MOD : Nat := 65536

/-- Rust `u64::checked_mul`: `none` exactly when the product overflows. -/
def checked_mul (a b : Nat) : Option Nat :=
  if a * b < U64_MOD then some (a * b) else none

/-- Rust `u64::checked_div`: `none` exactly on a zero divisor. -/
def checked_div (a b : Nat) : Option Nat :=
  if b = 0 then none else some (a / b)

/-- Rust `u64::checked_sub`: `none` exactly when the subtraction would underflow. -/
def checked_sub (a b : Nat) : Option Nat :=
  if b ≤ a then some (a - b) else none

/-- Error taxonomy of src/src/error.rs (`DexError`).  The checked-arithmetic
sites in the source raise `ProgramError::ArithmeticOverflow`, which carries
the same name and meaning as `DexError::ArithmeticOverflow`; the embedding
identifies the two under the single constructor `arithmeticOverflow`. -/
inductive DexError where
  | invalidInstructionData
  | invalidAccountData
  | accountNotAuthorized
  | insufficientFunds
  | orderNotFound
  | invalidOrderPrice
  | invalidOrderSize
  | orderBookFull
  | invalidTokenAccount
  | arithmeticOverflow
  deriving DecidableEq, Repr

/-- Market record of src/src/state.rs. -/
structure Market where
  is_initialized : Bool
  authority : Nat
  base_mint : Nat
  quote_mint : Nat
  min_base_order_size : Nat
  tick_size : Nat
  fee_rate_bps : Nat
  next_order_id : Nat
  num_bids : Nat
  num_asks : Nat
  deriving DecidableEq, Repr

/-- Order record of src/src/state.rs. -/
structure Order where
  is_initialized : Bool
  order_id : Nat
  owner : Nat
  market : Nat
  is_buy : Bool
  limit_price : Nat
  original_quantity : Nat
  remaining_quantity : Nat
  creation_timestamp : Nat
  deriving DecidableEq, Repr

/-- Market.calculate_fee of src/src/state.rs:
`trade_value.checked_mul(fee_rate_bps).ok_or(ArithmeticOverflow)?.checked_div(10000).ok_or(ArithmeticOverflow)?`. -/
def Market.calculate_fee (m : Market) (trade_value : Nat) : Except DexError Nat :=
  match checked_mul trade_value m.fee_rate_bps with
  | none => .error .arithmeticOverflow
  | some p =>
    match checked_div p 10000 with
    | none => .error .arithmeticOverflow
    | some f => .ok f

/-- A token-transfer request issued to the external SPL-token collaborator:
move `amount` from the token balance at `source` to the one at `dest`,
authorized by `authority` (a wallet signer or a program-derived authority). -/
structure Transfer where
  source : Nat
  dest : Nat
  authority : Nat
  amount : Nat
  deriving DecidableEq, Repr

/-- Outcome of one processor call: success with a value and the issued
transfer requests, a returned `DexError`/`ProgramError`, or a Rust panic
(division by zero), which also aborts the transaction but returns no error
value. -/
inductive TxOutcome (α : Type) where
  | ok (val : α) (transfers : List Transfer)
  | err (e : DexError) (transfers : List Transfer)
  | aborted (transfers : List Transfer)
  deriving DecidableEq, Repr

/-- Accounts and parameters of `process_initialize_market`
(src/src/processor.rs lines 85-152). -/
structure InitArgs where
  authority_pk : Nat
  authority_signs : Bool
  market_pk : Nat
  base_mint_pk : Nat
  quote_mint_pk : Nat
  min_base_order_size : Nat
  tick_size : Nat
  fee_rate_bps : Nat
  deriving DecidableEq, Repr

/-- process_initialize_market: after the signer check (and rent-funded
allocation of the market account when needed, an external effect with no
bearing on the record contents), the Market record is written unconditionally
— the existing contents are never inspected and `fee_rate_bps` is not
bounds-checked. -/
def processInitializeMarket (a : InitArgs) : TxOutcome Market :=
  if !a.authority_signs then .err .accountNotAuthorized []
  else
    .ok { is_initialized := true
          authority := a.authority_pk
          base_mint := a.base_mint_pk
          quote_mint := a.quote_mint_pk
          min_base_order_size := a.min_base_order_size
          tick_size := a.tick_size
          fee_rate_bps := a.fee_rate_bps
          next_order_id := 1
          num_bids := 0
          num_asks := 0 } []

/-- Accounts and parameters of `process_place_limit_order`
(src/src/processor.rs lines 155-303); `timestamp` is the host clock's
`unix_timestamp as u64`. -/
structure PlaceArgs where
  owner_pk : Nat
  owner_signs : Bool
  market_pk : Nat
  order_pk : Nat
  owner_token_pk : Nat
  is_buy : Bool
  limit_price : Nat
  quantity : Nat
  timestamp : Nat
  deriving DecidableEq, Repr

/-- process_place_limit_order, acting on the Market record loaded from the
market account.  Checks in source order: signer, market initialized, minimum
size, tick multiple (Rust `limit_price % tick_size` panics when
`tick_size = 0`).  It then writes the Order, bumps `next_order_id` and the
side counter (unchecked u64 `+=`, wrapping), and finally locks collateral:
`limit_price.checked_mul(quantity)` quote units for a buy (overflow aborts
with `ArithmeticOverflow`), `quantity` base units for a sell, transferred
from the owner's token account to the order account under the owner's
wallet authority. -/
def processPlaceLimitOrder (market : Market) (a : PlaceArgs) :
    TxOutcome (Market × Order) :=
  if !a.owner_signs then .err .accountNotAuthorized []
  else if !market.is_initialized then .err .invalidAccountData []
  else if a.quantity < market.min_base_order_size then .err .invalidOrderSize []
  else if market.tick_size = 0 then .aborted []
  else if a.limit_price % market.tick_size ≠ 0 then .err .invalidOrderPrice []
  else
    let order : Order :=
      { is_initialized := true
        order_id := market.next_order_id
        owner := a.owner_pk
        market := a.market_pk
        is_buy := a.is_buy
        limit_price := a.limit_price
        original_quantity := a.quantity
        remaining_quantity := a.quantity
        creation_timestamp := a.timestamp }
    let market' : Market :=
      { market with
        next_order_id := (market.next_order_id + 1) % U64_MOD
        num_bids := if a.is_buy then (market.num_bids + 1) % U64_MOD else market.num_bids
        num_asks := if a.is_buy then market.num_asks else (market.num_asks + 1) % U64_MOD }
    if a.is_buy then
      match checked_mul a.limit_price a.quantity with
      | none => .err .arithmeticOverflow []
      | some amount =>
        .ok (market', order) [⟨a.owner_token_pk, a.order_pk, a.owner_pk, amount⟩]
    else
      .ok (market', order) [⟨a.owner_token_pk, a.order_pk, a.owner_pk, a.quantity⟩]

/-- Accounts of `process_cancel_order` (src/src/processor.rs lines 306-422). -/
structure CancelArgs where
  owner_pk : Nat
  owner_signs : Bool
  market_pk : Nat
  order_pk : Nat
  owner_token_pk : Nat
  deriving DecidableEq, Repr

/-- The all-zero Order record: what an order account's bytes decode to after
`process_cancel_order` zeroes them. -/
def zeroOrder : Order :=
  { is_initialized := false, order_id := 0, owner := 0, market := 0,
    is_buy := false, limit_price := 0, original_quantity := 0,
    remaining_quantity := 0, creation_timestamp := 0 }

/-- process_cancel_order, acting on the Market and Order records loaded from
their accounts.  Checks in source order: signer, order initialized, order
owner equals the signer, market initialized, order's recorded market equals
the market account.  It then releases the locked collateral
(`limit_price.checked_mul(remaining_quantity)` for a buy — overflow aborts —
`remaining_quantity` for a sell) from the order account back to the owner's
token account under the order account's program-derived authority,
decrements the side counter with `saturating_sub` (Nat subtraction already
floors at zero), and zeroes the order account's bytes. -/
def processCancelOrder (market : Market) (order : Order) (a : CancelArgs) :
    TxOutcome (Market × Order) :=
  if !a.owner_signs then .err .accountNotAuthorized []
  else if !order.is_initialized then .err .invalidAccountData []
  else if order.owner ≠ a.owner_pk then .err .accountNotAuthorized []
  else if !market.is_initialized then .err .invalidAccountData []
  else if order.market ≠ a.market_pk then .err .invalidAccountData []
  else
    match (if order.is_buy then checked_mul order.limit_price order.remaining_quantity
           else some order.remaining_quantity) with
    | none => .err .arithmeticOverflow []
    | some amount =>
      let market' : Market :=
        { market with
          num_bids := if order.is_buy then market.num_bids - 1 else market.num_bids
          num_asks := if order.is_buy then market.num_asks else market.num_asks - 1 }
      .ok (market', zeroOrder) [⟨a.order_pk, a.owner_token_pk, a.order_pk, amount⟩]

/-- Accounts and parameters of `process_settle_funds`
(src/src/processor.rs lines 425-534). -/
structure SettleArgs where
  authority_pk : Nat
  authority_signs : Bool
  market_pk : Nat
  taker_base_pk : Nat
  taker_quote_pk : Nat
  maker_base_pk : Nat
  maker_quote_pk : Nat
  fee_recipient_pk : Nat
  base_amount : Nat
  quote_amount : Nat
  deriving DecidableEq, Repr

/-- process_settle_funds, acting on the Market record loaded from the market
account.  Checks in source order: signer, market initialized, caller equals
`market.authority`.  It computes `fee = market.calculate_fee(quote_amount)`
and `quote_amount.checked_sub(fee)`, then issues: `base_amount` from the
maker's base account to the taker's base account, `quote_amount - fee` from
the taker's quote account to the maker's quote account, and — only when
`fee > 0` — `fee` from the taker's quote account to the fee recipient, all
under the market account's program-derived authority.  No Market or Order
record is written. -/
def processSettleFunds (market : Market) (a : SettleArgs) : TxOutcome Unit :=
  if !a.authority_signs then .err .accountNotAuthorized []
  else if !market.is_initialized then .err .invalidAccountData []
  else if market.authority ≠ a.authority_pk then .err .accountNotAuthorized []
  else
    match market.calculate_fee a.quote_amount with
    | .error e => .err e []
    | .ok fee =>
      match checked_sub a.quote_amount fee with
      | none => .err .arithmeticOverflow []
      | some quote_after =>
        let t1 : Transfer := ⟨a.maker_base_pk, a.taker_base_pk, a.market_pk, a.base_amount⟩
        let t2 : Transfer := ⟨a.taker_quote_pk, a.maker_quote_pk, a.market_pk, quote_after⟩
        if fee > 0 then
          .ok () [t1, t2, ⟨a.taker_quote_pk, a.fee_recipient_pk, a.market_pk, fee⟩]
        else
          .ok () [t1, t2]

/-- One market storage slot and one order storage slot, the persistent state
a single market's transitions act on (the host serializes all instructions
touching a given account, so each market/order pair evolves sequentially). -/
structure World where
  market : Market
  order : Order
  deriving DecidableEq, Repr

/-- The all-zero Market record: the contents of a freshly allocated,
never-initialized market account. -/
def zeroMarket : Market :=
  { is_initialized := false, authority := 0, base_mint := 0, quote_mint := 0,
    min_base_order_size := 0, tick_size := 0, fee_rate_bps := 0,
    next_order_id := 0, num_bids := 0, num_asks := 0 }

/-- The world before any instruction has touched the two slots. -/
def zeroWorld : World := ⟨zeroMarket, zeroOrder⟩

/-- One decoded instruction together with the accounts the caller passed
(src/src/instruction.rs tags, with each variant's account list). -/
inductive DexInstr where
  | initMarket (a : InitArgs)
  | place (a : PlaceArgs)
  | cancel (a : CancelArgs)
  | settle (a : SettleArgs)
  deriving DecidableEq, Repr

/-- Dispatch of `Processor::process`: run the instruction's processor on the
current slot contents and write back the records it produced (settlement
writes none). -/
def stepWorld (w : World) : DexInstr → TxOutcome World
  | .initMarket a =>
    match processInitializeMarket a with
    | .ok m tfs => .ok { w with market := m } tfs
    | .err e tfs => .err e tfs
    | .aborted tfs => .aborted tfs
  | .place a =>
    match processPlaceLimitOrder w.market a with
    | .ok (m, o) tfs => .ok { market := m, order := o } tfs
    | .err e tfs => .err e tfs
    | .aborted tfs => .aborted tfs
  | .cancel a =>
    match processCancelOrder w.market w.order a with
    | .ok (m, o) tfs => .ok { market := m, order := o } tfs
    | .err e tfs => .err e tfs
    | .aborted tfs => .aborted tfs
  | .settle a =>
    match processSettleFunds w.market a with
    | .ok _ tfs => .ok w tfs
    | .err e tfs => .err e tfs
    | .aborted tfs => .aborted tfs

/-- Transaction-level effect of one instruction: the host runtime persists
the writes and transfers only when the instruction succeeds; an error or a
panic rolls the whole transaction back, leaving the records unchanged and
cancelling every transfer. -/
def commit (w : World) (i : DexInstr) : World × List Transfer :=
  match stepWorld w i with
  | .ok w' tfs => (w', tfs)
  | .err _ _ => (w, [])
  | .aborted _ => (w, [])

/-- Run a list of instructions, requiring every one of them to succeed;
returns the final world and the order ids assigned by the successful
placements, in order. -/
def runDex : World → List DexInstr → Option (World × List Nat)
  | w, [] => some (w, [])
  | w, i :: is =>
    match stepWorld w i with
    | .ok w' _ =>
      match runDex w' is with
      | some (wf, ids) =>
        some (wf, (match i with | .place _ => [w'.order.order_id] | _ => []) ++ ids)
      | none => none
    | _ => none

/-- Recognizer for InitializeMarket instructions. -/
def isInitInstr : DexInstr → Bool
  | .initMarket _ => true
  | _ => false

/-- Well-formedness of the raw instruction parameters enforced by Borsh
decoding in src/src/instruction.rs: `fee_rate_bps` is a `u16`.  (The other
`u64` parameters need no bound for the theorems below.) -/
def instrWF : DexInstr → Bool
  | .initMarket a => a.fee_rate_bps < U16_MOD
  | _ => true

/-! Concrete fixtures used by witnesses and counterexamples. -/

/-- The spec's running example market configuration:
`min_base_order_size = 100`, `tick_size = 10`, `fee_rate_bps = 25`. -/
def fxInit : InitArgs :=
  { authority_pk := 1, authority_signs := true, market_pk := 2,
    base_mint_pk := 3, quote_mint_pk := 4,
    min_base_order_size := 100, tick_size := 10, fee_rate_bps := 25 }

/-- The spec's running example buy placement: `price = 1000`, `quantity = 500`. -/
def fxPlaceBuy : PlaceArgs :=
  { owner_pk := 5, owner_signs := true, market_pk := 2, order_pk := 6,
    owner_token_pk := 7, is_buy := true, limit_price := 1000, quantity := 500,
    timestamp := 0 }

/-- A market initialization whose `fee_rate_bps` exceeds 10000 (still a u16). -/
def fxInitHighFee : InitArgs :=
  { fxInit with fee_rate_bps := 10001 }

/-- A permissive market initialization: `min_base_order_size = 0`, `tick_size = 1`. -/
def fxInitLoose : InitArgs :=
  { fxInit with min_base_order_size := 0, tick_size := 1, fee_rate_bps := 0 }

/-- A sell placement acceptable on the permissive market. -/
def fxPlaceSell : PlaceArgs :=
  { owner_pk := 5, owner_signs := true, market_pk := 2, order_pk := 6,
    owner_token_pk := 7, is_buy := false, limit_price := 0, quantity := 1,
    timestamp := 0 }

/-- An initialized market whose `next_order_id` sits at the top of the u64
range (the record a market reaches after `2^64 - 2` successful placements). -/
def fxMarketWrap : Market :=
  { is_initialized := true, authority := 1, base_mint := 3, quote_mint := 4,
    min_base_order_size := 0, tick_size := 1, fee_rate_bps := 0,
    next_order_id := U64_MOD - 1, num_bids := 0, num_asks := 0 }

/-- An initialized market with `tick_size = 0` (accepted by InitializeMarket). -/
def fxMarketTickZero : Market :=
  { is_initialized := true, authority := 1, base_mint := 3, quote_mint := 4,
    min_base_order_size := 0, tick_size := 0, fee_rate_bps := 25,
    next_order_id := 1, num_bids := 0, num_asks := 0 }

/-- An initialized market used by the error-path and settlement witnesses. -/
def fxMarket : Market :=
  { is_initialized := true, authority := 1, base_mint := 3, quote_mint := 4,
    min_base_order_size := 100, tick_size := 10, fee_rate_bps := 25,
    next_order_id := 1, num_bids := 0, num_asks := 0 }

/-- A buy placement whose lock amount `limit_price * quantity` overflows u64
(the price is a multiple of `fxMarket`'s tick size 10). -/
def fxPlaceOverflow : PlaceArgs :=
  { owner_pk := 5, owner_signs := true, market_pk := 2, order_pk := 6,
    owner_token_pk := 7, is_buy := true, limit_price := 4294967300,
    quantity := 4294967296, timestamp := 0 }

/-- A market initialization with `tick_size = 0`. -/
def fxInitTickZero : InitArgs :=
  { fxInit with tick_size := 0 }

/-- A sell placement of positive price and quantity, used on the
zero-tick-size market. -/
def fxPlaceTickZero : PlaceArgs :=
  { owner_pk := 5, owner_signs := true, market_pk := 2, order_pk := 6,
    owner_token_pk := 7, is_buy := false, limit_price := 1, quantity := 1,
    timestamp := 0 }

/-- A placement of price 0 (a multiple of every tick size, including 0). -/
def fxPlaceZeroPrice : PlaceArgs :=
  { owner_pk := 5, owner_signs := true, market_pk := 2, order_pk := 6,
    owner_token_pk := 7, is_buy := false, limit_price := 0, quantity := 1,
    timestamp := 0 }

/-- A placement below `fxMarket`'s minimum order size of 100. -/
def fxPlaceSmall : PlaceArgs :=
  { fxPlaceBuy with quantity := 50 }

/-- A placement whose price 1005 is not a multiple of `fxMarket`'s tick size 10. -/
def fxPlaceBadPrice : PlaceArgs :=
  { fxPlaceBuy with limit_price := 1005 }

/-- Observation helper: the market's `next_order_id` after an instruction,
when the instruction succeeds. -/
def nextIdAfter (w : World) (i : DexInstr) : Option Nat :=
  match stepWorld w i with
  | .ok w' _ => some w'.market.next_order_id
  | _ => none

/-- An initialized resting buy order owned by pubkey 5 on market 2. -/
def fxOrder : Order :=
  { is_initialized := true, order_id := 1, owner := 5, market := 2,
    is_buy := true, limit_price := 1000, original_quantity := 500,
    remaining_quantity := 500, creation_timestamp := 0 }

/-- A cancellation of `fxOrder` by its owner. -/
def fxCancel : CancelArgs :=
  { owner_pk := 5, owner_signs := true, market_pk := 2, order_pk := 6,
    owner_token_pk := 7 }

/-- A cancellation attempt on `fxOrder` by a signer who is not its owner. -/
def fxCancelWrongOwner : CancelArgs :=
  { fxCancel with owner_pk := 9 }

/-- A settlement request on `fxMarket` with the spec's example quote amount. -/
def fxSettle : SettleArgs :=
  { authority_pk := 1, authority_signs := true, market_pk := 2,
    taker_base_pk := 11, taker_quote_pk := 12, maker_base_pk := 13,
    maker_quote_pk := 14, fee_recipient_pk := 15,
    base_amount := 300, quote_amount := 1000000 }

/-! Helper lemmas (shared). -/

/-- A placement that returns a `DexError` has issued no transfer request:
every error return in `process_place_limit_order` occurs before the single
`invoke` of the token transfer. -/
theorem place_err_no_transfers {market : Market} {a : PlaceArgs} {e : DexError}
    {tfs : List Transfer} (h : processPlaceLimitOrder market a = .err e tfs) :
    tfs = [] := by
  unfold processPlaceLimitOrder at h
  repeat' split at h
  all_goals simp_all

/-- Inversion of a successful placement: all four validations passed and the
written records are exactly the ones the source constructs. -/
theorem place_ok_inv {market : Market} {a : PlaceArgs} {m' : Market} {o : Order}
    {tfs : List Transfer}
    (h : processPlaceLimitOrder market a = .ok (m', o) tfs) :
    a.owner_signs = true ∧ market.is_initialized = true ∧
    market.min_base_order_size ≤ a.quantity ∧ market.tick_size ≠ 0 ∧
    a.limit_price % market.tick_size = 0 ∧
    o = { is_initialized := true, order_id := market.next_order_id,
          owner := a.owner_pk, market := a.market_pk, is_buy := a.is_buy,
          limit_price := a.limit_price, original_quantity := a.quantity,
          remaining_quantity := a.quantity, creation_timestamp := a.timestamp } ∧
    m' = { market with
           next_order_id := (market.next_order_id + 1) % U64_MOD
           num_bids := if a.is_buy then (market.num_bids + 1) % U64_MOD
                       else market.num_bids
           num_asks := if a.is_buy then market.num_asks
                       else (market.num_asks + 1) % U64_MOD } := by
  unfold processPlaceLimitOrder at h
  repeat' split at h
  all_goals simp_all

/-- Inversion of a successful initialization: the authority signed, no
transfer was issued, and the written Market is exactly the fresh record. -/
theorem init_ok_inv {a : InitArgs} {m : Market} {tfs : List Transfer}
    (h : processInitializeMarket a = .ok m tfs) :
    a.authority_signs = true ∧ tfs = [] ∧
    m = { is_initialized := true, authority := a.authority_pk,
          base_mint := a.base_mint_pk, quote_mint := a.quote_mint_pk,
          min_base_order_size := a.min_base_order_size,
          tick_size := a.tick_size, fee_rate_bps := a.fee_rate_bps,
          next_order_id := 1, num_bids := 0, num_asks := 0 } := by
  unfold processInitializeMarket at h
  repeat' split at h
  all_goals simp_all

/-- Inversion of a successful cancellation: all checks passed, the released
amount is the locked collateral, the counter decrement saturates at zero,
and the order slot is zeroed. -/
theorem cancel_ok_inv {market : Market} {order : Order} {a : CancelArgs}
    {m' : Market} {o' : Order} {tfs : List Transfer}
    (h : processCancelOrder market order a = .ok (m', o') tfs) :
    a.owner_signs = true ∧ order.is_initialized = true ∧
    order.owner = a.owner_pk ∧ market.is_initialized = true ∧
    order.market = a.market_pk ∧
    (order.is_buy = true → order.limit_price * order.remaining_quantity < U64_MOD) ∧
    o' = zeroOrder ∧
    m' = { market with
           num_bids := if order.is_buy then market.num_bids - 1
                       else market.num_bids
           num_asks := if order.is_buy then market.num_asks
                       else market.num_asks - 1 } ∧
    tfs = [⟨a.order_pk, a.owner_token_pk, a.order_pk,
           if order.is_buy then order.limit_price * order.remaining_quantity
           else order.remaining_quantity⟩] := by
  unfold processCancelOrder checked_mul at h
  repeat' split at h
  all_goals simp_all
  all_goals omega

/-- A successful `stepWorld` on a placement comes from a successful
`processPlaceLimitOrder` on the loaded market record. -/
theorem stepWorld_place_ok {w : World} {a : PlaceArgs} {w' : World}
    {tfs : List Transfer} (h : stepWorld w (.place a) = .ok w' tfs) :
    processPlaceLimitOrder w.market a = .ok (w'.market, w'.order) tfs := by
  simp only [stepWorld] at h
  cases hp : processPlaceLimitOrder w.market a with
  | ok val tfs2 =>
    obtain ⟨m, o⟩ := val
    rw [hp] at h
    simp only [TxOutcome.ok.injEq] at h
    obtain ⟨rfl, rfl⟩ := h
    rfl
  | err e tfs2 => rw [hp] at h; simp at h
  | aborted tfs2 => rw [hp] at h; simp at h

/-- A successful `stepWorld` on a cancellation comes from a successful
`processCancelOrder` on the loaded records. -/
theorem stepWorld_cancel_ok {w : World} {a : CancelArgs} {w' : World}
    {tfs : List Transfer} (h : stepWorld w (.cancel a) = .ok w' tfs) :
    processCancelOrder w.market w.order a = .ok (w'.market, w'.order) tfs := by
  simp only [stepWorld] at h
  cases hp : processCancelOrder w.market w.order a with
  | ok val tfs2 =>
    obtain ⟨m, o⟩ := val
    rw [hp] at h
    simp only [TxOutcome.ok.injEq] at h
    obtain ⟨rfl, rfl⟩ := h
    rfl
  | err e tfs2 => rw [hp] at h; simp at h
  | aborted tfs2 => rw [hp] at h; simp at h

/-- A successful `stepWorld` on a settlement leaves the world unchanged
(settlement writes no record). -/
theorem stepWorld_settle_ok {w : World} {a : SettleArgs} {w' : World}
    {tfs : List Transfer} (h : stepWorld w (.settle a) = .ok w' tfs) :
    w' = w := by
  simp only [stepWorld] at h
  cases hp : processSettleFunds w.market a with
  | ok val tfs2 => rw [hp] at h; simp at h; exact h.1.symm
  | err e tfs2 => rw [hp] at h; simp at h
  | aborted tfs2 => rw [hp] at h; simp at h

/-- A successful `stepWorld` on an initialization writes the fresh Market
record of the supplied configuration. -/
theorem stepWorld_init_ok {w : World} {a : InitArgs} {w' : World}
    {tfs : List Transfer} (h : stepWorld w (.initMarket a) = .ok w' tfs) :
    w'.market = { is_initialized := true, authority := a.authority_pk,
                  base_mint := a.base_mint_pk, quote_mint := a.quote_mint_pk,
                  min_base_order_size := a.min_base_order_size,
                  tick_size := a.tick_size, fee_rate_bps := a.fee_rate_bps,
                  next_order_id := 1, num_bids := 0, num_asks := 0 } ∧
    w'.order = w.order := by
  simp only [stepWorld] at h
  cases hp : processInitializeMarket a with
  | ok m tfs2 =>
    rw [hp] at h
    simp only [TxOutcome.ok.injEq] at h
    obtain ⟨rfl, rfl⟩ := h
    obtain ⟨-, -, hm⟩ := init_ok_inv hp
    subst hm
    simp
  | err e tfs2 => rw [hp] at h; simp at h
  | aborted tfs2 => rw [hp] at h; simp at h

/-- Claim C2: for every Market and trade_value, `calculate_fee` returns
`floor(trade_value * fee_rate_bps / 10000)` when the product fits in u64 and
fails with `ArithmeticOverflow` when it overflows; whenever
`fee_rate_bps ≤ 10000` and the call succeeds, the fee is at most the trade
value. -/
theorem calculate_fee_spec (m : Market) (trade_value : Nat) :
    (trade_value * m.fee_rate_bps < U64_MOD →
      m.calculate_fee trade_value = .ok (trade_value * m.fee_rate_bps / 10000)) ∧
    (U64_MOD ≤ trade_value * m.fee_rate_bps →
      m.calculate_fee trade_value = .error .arithmeticOverflow) ∧
    (∀ fee, m.fee_rate_bps ≤ 10000 →
      m.calculate_fee trade_value = .ok fee → fee ≤ trade_value) := by
  refine ⟨fun h => ?_, fun h => ?_, fun fee hbps hok => ?_⟩
  · simp [Market.calculate_fee, checked_mul, checked_div, h]
  · simp [Market.calculate_fee, checked_mul, checked_div, Nat.not_lt.mpr h]
  · by_cases hc : trade_value * m.fee_rate_bps < U64_MOD
    · simp [Market.calculate_fee, checked_mul, checked_div, hc] at hok
      calc fee = trade_value * m.fee_rate_bps / 10000 := hok.symm
        _ ≤ trade_value * 10000 / 10000 :=
            Nat.div_le_div_right (Nat.mul_le_mul_left trade_value hbps)
        _ = trade_value := Nat.mul_div_cancel trade_value (by norm_num)
    · simp [Market.calculate_fee, checked_mul, checked_div, hc] at hok

/-- Witness for C2 at the spec's example: fee rate 25 bps on a trade value of
1000000 gives fee 2500, which is at most the trade value. -/
theorem calculate_fee_spec_witness :
    fxMarket.calculate_fee 1000000 = .ok 2500 ∧ (2500 : Nat) ≤ 1000000 := by
  have h1 := (calculate_fee_spec fxMarket 1000000).1 (by decide)
  have h3 := (calculate_fee_spec fxMarket 1000000).2.2 2500 (by decide)
  exact ⟨by simpa [fxMarket] using h1, h3 (by simpa [fxMarket] using h1)⟩

/-- Claim C1: every PlaceLimitOrder that returns a validation or arithmetic
error issues no custody transfer, and the transaction rollback leaves the
persisted Market and Order records unchanged; in particular a buy placement
that passes the signer, initialization, size and tick checks but whose lock
amount `limit_price * quantity` overflows u64 fails with
`ArithmeticOverflow`. -/
theorem place_failure_atomic (w : World) (a : PlaceArgs) :
    (∀ e tfs, stepWorld w (.place a) = .err e tfs →
      tfs = [] ∧ commit w (.place a) = (w, [])) ∧
    (∀ tfs, stepWorld w (.place a) = .aborted tfs →
      tfs = [] ∧ commit w (.place a) = (w, [])) ∧
    (a.owner_signs = true → w.market.is_initialized = true →
      w.market.min_base_order_size ≤ a.quantity → w.market.tick_size ≠ 0 →
      a.limit_price % w.market.tick_size = 0 → a.is_buy = true →
      U64_MOD ≤ a.limit_price * a.quantity →
      stepWorld w (.place a) = .err .arithmeticOverflow []) := by
  refine ⟨?_, ?_, ?_⟩
  · intro e tfs h
    have hp : ∃ e2 tfs2, processPlaceLimitOrder w.market a = .err e2 tfs2 ∧
        e2 = e ∧ tfs2 = tfs := by
      simp only [stepWorld] at h
      cases hq : processPlaceLimitOrder w.market a with
      | ok val tfs2 => obtain ⟨m, o⟩ := val; rw [hq] at h; simp at h
      | err e2 tfs2 => rw [hq] at h; simp at h; exact ⟨e2, tfs2, rfl, h.1, h.2⟩
      | aborted tfs2 => rw [hq] at h; simp at h
    obtain ⟨e2, tfs2, hq, rfl, rfl⟩ := hp
    refine ⟨place_err_no_transfers hq, ?_⟩
    unfold commit
    rw [h]
  · intro tfs h
    have hp : ∃ tfs2, processPlaceLimitOrder w.market a = .aborted tfs2 ∧
        tfs2 = tfs := by
      simp only [stepWorld] at h
      cases hq : processPlaceLimitOrder w.market a with
      | ok val tfs2 => obtain ⟨m, o⟩ := val; rw [hq] at h; simp at h
      | err e2 tfs2 => rw [hq] at h; simp at h
      | aborted tfs2 => rw [hq] at h; simp at h; exact ⟨tfs2, rfl, h⟩
    obtain ⟨tfs2, hq, rfl⟩ := hp
    have htfs : tfs2 = [] := by
      unfold processPlaceLimitOrder at hq
      repeat' split at hq
      all_goals simp_all
    refine ⟨htfs, ?_⟩
    unfold commit
    rw [h]
  · intro h1 h2 h3 h4 h5 h6 h7
    simp [stepWorld, processPlaceLimitOrder, checked_mul, h1, h2, h4, h5, h6,
      Nat.not_lt.mpr h3, Nat.not_lt.mpr h7]

/-- Witness for C1: on `fxMarket`, the overflowing buy `fxPlaceOverflow`
fails with `ArithmeticOverflow`, no transfer is issued, and the committed
state is unchanged. -/
theorem place_failure_atomic_witness :
    stepWorld ⟨fxMarket, zeroOrder⟩ (.place fxPlaceOverflow) =
      .err .arithmeticOverflow [] ∧
    commit ⟨fxMarket, zeroOrder⟩ (.place fxPlaceOverflow) =
      (⟨fxMarket, zeroOrder⟩, []) := by
  have h2 := (place_failure_atomic ⟨fxMarket, zeroOrder⟩ fxPlaceOverflow).2.2
    (by decide) (by decide) (by decide) (by decide) (by decide) (by decide)
    (by decide)
  have h1 := (place_failure_atomic ⟨fxMarket, zeroOrder⟩ fxPlaceOverflow).1
    .arithmeticOverflow [] h2
  exact ⟨h2, h1.2⟩

/-- Claim C10: InitializeMarket accepts `tick_size = 0`, and on such a market
every placement that passes the signer, initialization and minimum-size
checks reaches the division by zero in `limit_price % tick_size` and panics
— the InvalidOrderPrice error branch is not what occurs — so a total
embedding of PlaceLimitOrder needs the precondition `tick_size > 0`. -/
theorem tick_size_zero_panics :
    (processInitializeMarket fxInitTickZero = .ok
      { is_initialized := true, authority := 1, base_mint := 3, quote_mint := 4,
        min_base_order_size := 100, tick_size := 0, fee_rate_bps := 25,
        next_order_id := 1, num_bids := 0, num_asks := 0 } []) ∧
    (∀ (market : Market) (a : PlaceArgs),
      market.is_initialized = true → market.tick_size = 0 →
      a.owner_signs = true → market.min_base_order_size ≤ a.quantity →
      processPlaceLimitOrder market a = .aborted [] ∧
      processPlaceLimitOrder market a ≠ .err .invalidOrderPrice []) := by
  constructor
  · decide
  · intro market a h1 h2 h3 h4
    have hs : processPlaceLimitOrder market a = .aborted [] := by
      simp [processPlaceLimitOrder, h1, h2, h3, Nat.not_lt.mpr h4]
    exact ⟨hs, by simp [hs]⟩

/-- Witness for C10: the concrete zero-tick market and a signed, acceptable
placement on it reach the panic. -/
theorem tick_size_zero_panics_witness :
    processPlaceLimitOrder fxMarketTickZero fxPlaceTickZero = .aborted [] :=
  (tick_size_zero_panics.2 fxMarketTickZero fxPlaceTickZero (by decide)
    (by decide) (by decide) (by decide)).1

/-- Counterexample to C8 as stated: on an initialized market with
`tick_size = 0` (which InitializeMarket accepts), a signed placement of
acceptable size whose price 1 is not a multiple of the tick size does not
fail with InvalidOrderPrice — the code panics on the division by zero. -/
theorem place_price_error_counterexample :
    processPlaceLimitOrder fxMarketTickZero fxPlaceTickZero = .aborted [] ∧
    processPlaceLimitOrder fxMarketTickZero fxPlaceTickZero ≠
      .err .invalidOrderPrice [] := by decide

/-- Claim C8 (amended): on an initialized market, a signed placement with
`quantity < min_base_order_size` fails with InvalidOrderSize; a signed
placement of acceptable size on a market with nonzero tick size whose
price is not a multiple of the tick size fails with InvalidOrderPrice; in
both cases no transfer is issued and the committed state is unchanged. -/
theorem place_validation_errors (w : World) (a : PlaceArgs) :
    (a.owner_signs = true → w.market.is_initialized = true →
      a.quantity < w.market.min_base_order_size →
      stepWorld w (.place a) = .err .invalidOrderSize [] ∧
      commit w (.place a) = (w, [])) ∧
    (a.owner_signs = true → w.market.is_initialized = true →
      w.market.min_base_order_size ≤ a.quantity → w.market.tick_size ≠ 0 →
      a.limit_price % w.market.tick_size ≠ 0 →
      stepWorld w (.place a) = .err .invalidOrderPrice [] ∧
      commit w (.place a) = (w, [])) := by
  constructor
  · intro h1 h2 h3
    have hs : stepWorld w (.place a) = .err .invalidOrderSize [] := by
      simp [stepWorld, processPlaceLimitOrder, h1, h2, h3]
    exact ⟨hs, by unfold commit; rw [hs]⟩
  · intro h1 h2 h3 h4 h5
    have hs : stepWorld w (.place a) = .err .invalidOrderPrice [] := by
      simp [stepWorld, processPlaceLimitOrder, h1, h2, h4, h5, Nat.not_lt.mpr h3]
    exact ⟨hs, by unfold commit; rw [hs]⟩

/-- Witness for C8 (amended) on `fxMarket`: quantity 50 is rejected as too
small, price 1005 is rejected as off-tick, and the off-tick failure commits
no change. -/
theorem place_validation_errors_witness :
    stepWorld ⟨fxMarket, zeroOrder⟩ (.place fxPlaceSmall) =
      .err .invalidOrderSize [] ∧
    stepWorld ⟨fxMarket, zeroOrder⟩ (.place fxPlaceBadPrice) =
      .err .invalidOrderPrice [] ∧
    commit ⟨fxMarket, zeroOrder⟩ (.place fxPlaceBadPrice) =
      (⟨fxMarket, zeroOrder⟩, []) :=
  ⟨((place_validation_errors ⟨fxMarket, zeroOrder⟩ fxPlaceSmall).1
      (by decide) (by decide) (by decide)).1,
   ((place_validation_errors ⟨fxMarket, zeroOrder⟩ fxPlaceBadPrice).2
      (by decide) (by decide) (by decide) (by decide) (by decide)).1,
   ((place_validation_errors ⟨fxMarket, zeroOrder⟩ fxPlaceBadPrice).2
      (by decide) (by decide) (by decide) (by decide) (by decide)).2⟩

/-- Claim C9: cancelling an initialized order whose recorded owner differs
from the signing caller fails with AccountNotAuthorized: no transfer is
issued, no counter decremented, no bytes zeroed — the committed records are
unchanged. -/
theorem cancel_wrong_owner_fails (w : World) (a : CancelArgs) :
    a.owner_signs = true → w.order.is_initialized = true →
    w.order.owner ≠ a.owner_pk →
    stepWorld w (.cancel a) = .err .accountNotAuthorized [] ∧
    commit w (.cancel a) = (w, []) := by
  intro h1 h2 h3
  have hs : stepWorld w (.cancel a) = .err .accountNotAuthorized [] := by
    simp [stepWorld, processCancelOrder, h1, h2, h3]
  exact ⟨hs, by unfold commit; rw [hs]⟩

/-- Witness for C9: pubkey 9 signs a cancellation of `fxOrder`, which is
owned by pubkey 5; the call fails and commits nothing. -/
theorem cancel_wrong_owner_fails_witness :
    stepWorld ⟨fxMarket, fxOrder⟩ (.cancel fxCancelWrongOwner) =
      .err .accountNotAuthorized [] ∧
    commit ⟨fxMarket, fxOrder⟩ (.cancel fxCancelWrongOwner) =
      (⟨fxMarket, fxOrder⟩, []) :=
  cancel_wrong_owner_fails ⟨fxMarket, fxOrder⟩ fxCancelWrongOwner
    (by decide) (by decide) (by decide)

/-- Claim C6: cancelling an initialized order by its owner on its recorded
market releases exactly `limit_price * remaining_quantity` (buy) or
`remaining_quantity` (sell) from the order's custody back to the owner's
token account, decrements the side counter with saturating subtraction, and
zeroes the order's storage. -/
theorem cancel_by_owner_spec (w : World) (a : CancelArgs) :
    a.owner_signs = true → w.order.is_initialized = true →
    w.order.owner = a.owner_pk → w.market.is_initialized = true →
    w.order.market = a.market_pk →
    (w.order.is_buy = true →
      w.order.limit_price * w.order.remaining_quantity < U64_MOD) →
    stepWorld w (.cancel a) = .ok
      ⟨{ w.market with
         num_bids := if w.order.is_buy then w.market.num_bids - 1
                     else w.market.num_bids
         num_asks := if w.order.is_buy then w.market.num_asks
                     else w.market.num_asks - 1 },
       zeroOrder⟩
      [⟨a.order_pk, a.owner_token_pk, a.order_pk,
        if w.order.is_buy then w.order.limit_price * w.order.remaining_quantity
        else w.order.remaining_quantity⟩] := by
  intro h1 h2 h3 h4 h5 h6
  cases hb : w.order.is_buy with
  | true =>
    simp [stepWorld, processCancelOrder, checked_mul, h1, h2, h3, h4, h5, hb,
      h6 hb]
  | false =>
    simp [stepWorld, processCancelOrder, h1, h2, h3, h4, h5, hb]

/-- Witness for C6: owner 5 cancels the resting buy `fxOrder` on `fxMarket`;
exactly 500000 quote units flow from the order account back to the owner's
token account, the bid counter saturates at 0, and the order slot is zeroed. -/
theorem cancel_by_owner_spec_witness :
    stepWorld ⟨fxMarket, fxOrder⟩ (.cancel fxCancel) =
      .ok ⟨fxMarket, zeroOrder⟩ [⟨6, 7, 6, 500000⟩] := by
  have h := cancel_by_owner_spec ⟨fxMarket, fxOrder⟩ fxCancel (by decide)
    (by decide) (by decide) (by decide) (by decide) (fun _ => by decide)
  simpa [fxMarket, fxOrder, fxCancel] using h

/-- Claim C7: settlement by the signing market authority on an initialized
market issues exactly the three custody transfers — base to the taker, quote
minus fee to the maker, and the fee to the fee recipient exactly when it is
positive — and mutates no Market or Order record; at
`fee_rate_bps = 25, quote_amount = 1000000` the fee is 2500 and the maker's
quote credit is 997500. -/
theorem settle_funds_spec :
    (∀ (w : World) (a : SettleArgs),
      a.authority_signs = true → w.market.is_initialized = true →
      w.market.authority = a.authority_pk →
      a.quote_amount * w.market.fee_rate_bps < U64_MOD →
      a.quote_amount * w.market.fee_rate_bps / 10000 ≤ a.quote_amount →
      stepWorld w (.settle a) = .ok w
        ([⟨a.maker_base_pk, a.taker_base_pk, a.market_pk, a.base_amount⟩,
          ⟨a.taker_quote_pk, a.maker_quote_pk, a.market_pk,
           a.quote_amount - a.quote_amount * w.market.fee_rate_bps / 10000⟩] ++
         (if 0 < a.quote_amount * w.market.fee_rate_bps / 10000 then
            [⟨a.taker_quote_pk, a.fee_recipient_pk, a.market_pk,
              a.quote_amount * w.market.fee_rate_bps / 10000⟩]
          else []))) ∧
    processSettleFunds fxMarket fxSettle = .ok ()
      [⟨13, 11, 2, 300⟩, ⟨12, 14, 2, 997500⟩, ⟨12, 15, 2, 2500⟩] := by
  constructor
  · intro w a h1 h2 h3 h4 h5
    by_cases hf : 0 < a.quote_amount * w.market.fee_rate_bps / 10000
    · simp [stepWorld, processSettleFunds, Market.calculate_fee, checked_mul,
        checked_div, checked_sub, h1, h2, h3, h4, h5, hf]
    · simp [stepWorld, processSettleFunds, Market.calculate_fee, checked_mul,
        checked_div, checked_sub, h1, h2, h3, h4, h5, hf]
  · decide

/-- Witness for C7: the authority settles 300 base / 1000000 quote on
`fxMarket` (25 bps); the three transfers carry 300, 997500 and 2500, and the
world is unchanged. -/
theorem settle_funds_spec_witness :
    stepWorld ⟨fxMarket, fxOrder⟩ (.settle fxSettle) =
      .ok ⟨fxMarket, fxOrder⟩
        [⟨13, 11, 2, 300⟩, ⟨12, 14, 2, 997500⟩, ⟨12, 15, 2, 2500⟩] := by
  have h := settle_funds_spec.1 ⟨fxMarket, fxOrder⟩ fxSettle (by decide)
    (by decide) (by decide) (by decide) (by decide)
  simpa [fxMarket, fxSettle] using h

/-- A successful step with a well-formed instruction keeps the market's
`fee_rate_bps` inside the u16 range. -/
theorem step_fee_rate_bound {w w' : World} {i : DexInstr} {tfs : List Transfer}
    (hwf : instrWF i = true) (hb : w.market.fee_rate_bps < U16_MOD)
    (h : stepWorld w i = .ok w' tfs) : w'.market.fee_rate_bps < U16_MOD := by
  cases i with
  | initMarket a =>
    obtain ⟨hm, -⟩ := stepWorld_init_ok h
    rw [hm]
    simpa [instrWF] using hwf
  | place a =>
    obtain ⟨-, -, -, -, -, -, hm⟩ := place_ok_inv (stepWorld_place_ok h)
    rw [hm]
    exact hb
  | cancel a =>
    obtain ⟨-, -, -, -, -, -, -, hm, -⟩ := cancel_ok_inv (stepWorld_cancel_ok h)
    rw [hm]
    exact hb
  | settle a =>
    rw [stepWorld_settle_ok h]
    exact hb

/-- Along any successful run of well-formed instructions, the market's
`fee_rate_bps` stays inside the u16 range. -/
theorem runDex_fee_rate_bound :
    ∀ (l : List DexInstr) (w wf : World) (ids : List Nat),
    l.all instrWF = true → w.market.fee_rate_bps < U16_MOD →
    runDex w l = some (wf, ids) → wf.market.fee_rate_bps < U16_MOD := by
  intro l
  induction l with
  | nil =>
    intro w wf ids _ hb hr
    simp [runDex] at hr
    rw [← hr.1]
    exact hb
  | cons i is ih =>
    intro w wf ids hall hb hr
    simp only [List.all_cons, Bool.and_eq_true] at hall
    simp only [runDex] at hr
    cases hst : stepWorld w i with
    | ok w' tfs =>
      simp only [hst] at hr
      cases hr2 : runDex w' is with
      | none => simp only [hr2] at hr; simp at hr
      | some p =>
        obtain ⟨wf', ids'⟩ := p
        simp only [hr2] at hr
        simp at hr
        have hb' := step_fee_rate_bound hall.1 hb hst
        rw [← hr.1]
        exact ih w' wf' ids' hall.2 hb' hr2
    | err e tfs => simp only [hst] at hr; simp at hr
    | aborted tfs => simp only [hst] at hr; simp at hr

/-- Counterexample to C3 as stated: one successful InitializeMarket with
`fee_rate_bps = 10001` (no bound is checked) reaches a state whose
initialized Market record violates `fee_rate_bps ≤ 10000`. -/
theorem fee_rate_bound_counterexample :
    (runDex zeroWorld [.initMarket fxInitHighFee]).map
      (fun p => (p.1.market.is_initialized, p.1.market.fee_rate_bps)) =
      some (true, 10001) ∧
    ¬ (10001 : Nat) ≤ 10000 := by decide

/-- Claim C3 (amended): in every state reachable by successful transitions,
the market's `fee_rate_bps` lies in the u16 range (below 65536), and every
u16 value — including values above 10000 — is reachable as the
`fee_rate_bps` of an initialized market, because InitializeMarket stores the
supplied rate without a bound check. -/
theorem fee_rate_reachable_spec :
    (∀ (l : List DexInstr) (wf : World) (ids : List Nat),
      l.all instrWF = true → runDex zeroWorld l = some (wf, ids) →
      wf.market.fee_rate_bps < U16_MOD) ∧
    (∀ b, b < U16_MOD →
      ∃ (l : List DexInstr) (wf : World) (ids : List Nat),
        runDex zeroWorld l = some (wf, ids) ∧
        wf.market.is_initialized = true ∧ wf.market.fee_rate_bps = b) := by
  constructor
  · intro l wf ids hall hr
    exact runDex_fee_rate_bound l zeroWorld wf ids hall (by decide) hr
  · intro b hb
    refine ⟨[.initMarket { fxInit with fee_rate_bps := b }],
      ⟨{ is_initialized := true, authority := 1, base_mint := 3,
         quote_mint := 4, min_base_order_size := 100, tick_size := 10,
         fee_rate_bps := b, next_order_id := 1, num_bids := 0,
         num_asks := 0 }, zeroOrder⟩, [], ?_, rfl, rfl⟩
    simp [runDex, stepWorld, processInitializeMarket, fxInit, zeroWorld]

/-- Witness for C3 (amended): the market reached by initializing with the
example configuration has its fee rate inside the u16 range. -/
theorem fee_rate_reachable_spec_witness :
    (⟨fxMarket, zeroOrder⟩ : World).market.fee_rate_bps < U16_MOD :=
  fee_rate_reachable_spec.1 [.initMarket fxInit] ⟨fxMarket, zeroOrder⟩ []
    (by decide) (by decide)

/-- Counterexample to C5 as stated: (a) on a market whose `next_order_id` is
`2^64 - 1`, a placement that is valid in the claim's sense succeeds but the
unchecked u64 increment wraps `next_order_id` to 0 instead of increasing it
by 1; (b) on an initialized market with `tick_size = 0`, a signed placement
of acceptable size whose price 0 is a multiple of the tick size panics on
the division by zero, so no Order is written at all. -/
theorem place_success_counterexample :
    nextIdAfter ⟨fxMarketWrap, zeroOrder⟩ (.place fxPlaceSell) = some 0 ∧
    (0 : Nat) ≠ fxMarketWrap.next_order_id + 1 ∧
    (0 : Nat) % fxMarketTickZero.tick_size = 0 ∧
    stepWorld ⟨fxMarketTickZero, zeroOrder⟩ (.place fxPlaceZeroPrice) =
      .aborted [] := by decide

/-- Claim C5 (amended): for every successful placement the written Order has
`remaining_quantity = original_quantity = quantity` and `order_id` equal to
the market's prior `next_order_id`; `next_order_id` advances by 1 modulo
`2^64` — by exactly 1 whenever it does not wrap — and the side counter
advances likewise; on the spec's example market the first placement succeeds
as order 1 locking 500000 quote units, and the second assigns order id 2. -/
theorem place_success_spec :
    (∀ (w : World) (a : PlaceArgs) (w' : World) (tfs : List Transfer),
      stepWorld w (.place a) = .ok w' tfs →
      w'.order.remaining_quantity = a.quantity ∧
      w'.order.original_quantity = a.quantity ∧
      w'.order.order_id = w.market.next_order_id ∧
      w'.market.next_order_id = (w.market.next_order_id + 1) % U64_MOD ∧
      (w.market.next_order_id + 1 < U64_MOD →
        w'.market.next_order_id = w.market.next_order_id + 1) ∧
      (a.is_buy = true →
        w'.market.num_bids = (w.market.num_bids + 1) % U64_MOD ∧
        w'.market.num_asks = w.market.num_asks) ∧
      (a.is_buy = false →
        w'.market.num_asks = (w.market.num_asks + 1) % U64_MOD ∧
        w'.market.num_bids = w.market.num_bids)) ∧
    stepWorld ⟨fxMarket, zeroOrder⟩ (.place fxPlaceBuy) = .ok
      ⟨{ fxMarket with next_order_id := 2, num_bids := 1 },
       { is_initialized := true, order_id := 1, owner := 5, market := 2,
         is_buy := true, limit_price := 1000, original_quantity := 500,
         remaining_quantity := 500, creation_timestamp := 0 }⟩
      [⟨7, 6, 5, 500000⟩] ∧
    (runDex zeroWorld
        [.initMarket fxInit, .place fxPlaceBuy, .place fxPlaceBuy]).map
      Prod.snd = some [1, 2] := by
  refine ⟨?_, by decide, by decide⟩
  intro w a w' tfs h
  obtain ⟨-, -, -, -, -, ho, hm⟩ := place_ok_inv (stepWorld_place_ok h)
  refine ⟨by rw [ho], by rw [ho], by rw [ho], by rw [hm], ?_, ?_, ?_⟩
  · intro hlt
    rw [hm]
    exact Nat.mod_eq_of_lt hlt
  · intro hb
    rw [hm]
    simp [hb]
  · intro hb
    rw [hm]
    simp [hb]

/-- Witness for C5 (amended): instantiating the general part at the spec's
example placement gives remaining quantity 500 and a next order id of 2. -/
theorem place_success_spec_witness :
    ({ is_initialized := true, order_id := 1, owner := 5, market := 2,
       is_buy := true, limit_price := 1000, original_quantity := 500,
       remaining_quantity := 500, creation_timestamp := 0 } :
        Order).remaining_quantity = 500 ∧
    ({ fxMarket with next_order_id := 2, num_bids := 1 } :
        Market).next_order_id = 2 := by
  have h := place_success_spec.1 ⟨fxMarket, zeroOrder⟩ fxPlaceBuy
    ⟨{ fxMarket with next_order_id := 2, num_bids := 1 },
     { is_initialized := true, order_id := 1, owner := 5, market := 2,
       is_buy := true, limit_price := 1000, original_quantity := 500,
       remaining_quantity := 500, creation_timestamp := 0 }⟩
    [⟨7, 6, 5, 500000⟩] (by decide)
  have h5 := h.2.2.2.2.1 (by decide)
  exact ⟨h.1, h5⟩

/-- In a successful run containing no InitializeMarket, the assigned order
ids are consecutive values of the market's counter modulo `2^64`. -/
theorem runDex_ids_char :
    ∀ (l : List DexInstr) (w wf : World) (ids : List Nat),
    l.all (fun i => !isInitInstr i) = true →
    w.market.next_order_id < U64_MOD →
    runDex w l = some (wf, ids) →
    ids = (List.range ids.length).map
      (fun k => (w.market.next_order_id + k) % U64_MOD) := by
  intro l
  induction l with
  | nil =>
    intro w wf ids _ _ hr
    simp [runDex] at hr
    rw [hr.2]
    simp
  | cons i is ih =>
    intro w wf ids hall hn hr
    simp only [List.all_cons, Bool.and_eq_true] at hall
    simp only [runDex] at hr
    cases hst : stepWorld w i with
    | ok w' tfs =>
      simp only [hst] at hr
      cases hr2 : runDex w' is with
      | none => simp only [hr2] at hr; simp at hr
      | some p =>
        obtain ⟨wf', ids'⟩ := p
        simp only [hr2] at hr
        cases i with
        | initMarket a => simp [isInitInstr] at hall
        | place a =>
          simp at hr
          obtain ⟨-, hids⟩ := hr
          obtain ⟨-, -, -, -, -, ho, hm⟩ := place_ok_inv (stepWorld_place_ok hst)
          have hoid : w'.order.order_id = w.market.next_order_id := by rw [ho]
          have hnext : w'.market.next_order_id =
              (w.market.next_order_id + 1) % U64_MOD := by rw [hm]
          have hn' : w'.market.next_order_id < U64_MOD := by
            rw [hnext]
            exact Nat.mod_lt _ (by decide)
          have hih := ih w' wf' ids' hall.2 hn' hr2
          rw [hnext] at hih
          have hcomp : ((fun k => (w.market.next_order_id + k) % U64_MOD) ∘
              Nat.succ) =
              fun k => ((w.market.next_order_id + 1) % U64_MOD + k) % U64_MOD := by
            funext k
            simp only [Function.comp_apply, Nat.succ_eq_add_one,
              Nat.mod_add_mod]
            congr 1
            omega
          rw [← hids, hoid, List.length_cons, List.range_succ_eq_map,
            List.map_cons, List.map_map, hcomp, ← hih]
          simp [Nat.mod_eq_of_lt hn]
        | cancel a =>
          simp at hr
          obtain ⟨-, hids⟩ := hr
          obtain ⟨-, -, -, -, -, -, -, hm, -⟩ :=
            cancel_ok_inv (stepWorld_cancel_ok hst)
          have hnext : w'.market.next_order_id = w.market.next_order_id := by
            rw [hm]
          have hih := ih w' wf' ids' hall.2 (by rw [hnext]; exact hn) hr2
          rw [hnext] at hih
          rw [← hids]
          exact hih
        | settle a =>
          simp at hr
          obtain ⟨-, hids⟩ := hr
          have hw : w' = w := stepWorld_settle_ok hst
          have hih := ih w' wf' ids' hall.2 (by rw [hw]; exact hn) hr2
          rw [hw] at hih
          rw [← hids]
          exact hih
    | err e tfs => simp only [hst] at hr; simp at hr
    | aborted tfs => simp only [hst] at hr; simp at hr

/-- In a successful run containing no InitializeMarket and assigning at most
`2^64` order ids, all assigned ids are distinct. -/
theorem runDex_ids_nodup (l : List DexInstr) (w wf : World) (ids : List Nat)
    (hall : l.all (fun i => !isInitInstr i) = true)
    (hn : w.market.next_order_id < U64_MOD)
    (hr : runDex w l = some (wf, ids))
    (hlen : ids.length ≤ U64_MOD) : ids.Nodup := by
  rw [runDex_ids_char l w wf ids hall hn hr]
  apply List.Nodup.map_on ?_ (List.nodup_range _)
  intro x hx y hy hxy
  rw [List.mem_range] at hx hy
  have hx2 : x < U64_MOD := lt_of_lt_of_le hx hlen
  have hy2 : y < U64_MOD := lt_of_lt_of_le hy hlen
  simp only [U64_MOD] at hxy hx2 hy2
  omega

/-- Counterexample to C4 as stated: (a) InitializeMarket never checks that
the market is already initialized, so the four-step trace init, place, init,
place resets the counter and assigns order id 1 twice; (b) a successful
placement on a market whose `next_order_id` is `2^64 - 1` wraps the counter
to 0 rather than increasing it by 1. -/
theorem order_id_reuse_counterexample :
    (runDex zeroWorld [.initMarket fxInitLoose, .place fxPlaceSell,
        .initMarket fxInitLoose, .place fxPlaceSell]).map Prod.snd =
      some [1, 1] ∧
    ¬ ([1, 1] : List Nat).Nodup ∧
    nextIdAfter ⟨fxMarketWrap, zeroOrder⟩ (.place fxPlaceSell) = some 0 ∧
    (0 : Nat) ≠ fxMarketWrap.next_order_id + 1 := by decide

/-- Claim C4 (amended): every successful placement assigns
`order_id = next_order_id` and advances the counter by 1 modulo `2^64` (by
exactly 1 whenever it does not wrap); and along any successful run that
contains no re-initialization and assigns at most `2^64` ids, no order id is
assigned twice. -/
theorem order_id_assignment_spec :
    (∀ (w : World) (a : PlaceArgs) (w' : World) (tfs : List Transfer),
      stepWorld w (.place a) = .ok w' tfs →
      w'.order.order_id = w.market.next_order_id ∧
      w'.market.next_order_id = (w.market.next_order_id + 1) % U64_MOD ∧
      (w.market.next_order_id + 1 < U64_MOD →
        w'.market.next_order_id = w.market.next_order_id + 1)) ∧
    (∀ (l : List DexInstr) (w wf : World) (ids : List Nat),
      l.all (fun i => !isInitInstr i) = true →
      w.market.next_order_id < U64_MOD →
      runDex w l = some (wf, ids) → ids.length ≤ U64_MOD →
      ids.Nodup) := by
  constructor
  · intro w a w' tfs h
    obtain ⟨-, -, -, -, -, ho, hm⟩ := place_ok_inv (stepWorld_place_ok h)
    exact ⟨by rw [ho], by rw [hm],
      fun hlt => by rw [hm]; exact Nat.mod_eq_of_lt hlt⟩
  · exact runDex_ids_nodup

/-- Witness for C4 (amended): two consecutive placements on the example
market assign the distinct ids 1 and 2. -/
theorem order_id_assignment_spec_witness :
    ([1, 2] : List Nat).Nodup ∧
    (runDex ⟨fxMarket, zeroOrder⟩ [.place fxPlaceBuy, .place fxPlaceBuy]).map
      Prod.snd = some [1, 2] :=
  ⟨order_id_assignment_spec.2 [.place fxPlaceBuy, .place fxPlaceBuy]
     ⟨fxMarket, zeroOrder⟩
     ⟨{ fxMarket with next_order_id := 3, num_bids := 2 },
      { is_initialized := true, order_id := 2, owner := 5, market := 2,
        is_buy := true, limit_price := 1000, original_quantity := 500,
        remaining_quantity := 500, creation_timestamp := 0 }⟩ [1, 2]
     (by decide) (by decide) (by decide) (by decide),
   by decide⟩

end Dex
